import Mathlib

/-!
Shallow embedding of the Notepad Pro note-collection state manager.

Sources embedded here:
* `types.ts` (src/unnamed/part_001, lines 1-33): `Note`, `UserProfile`,
  `SortOption`, `COLORS`.
* `App.tsx` (src/unnamed/part_001, lines 41-241): the store handlers
  `handleCreateNote`, `handleUpdateNote`, `handleDeleteNote`,
  `handleTogglePin`, `handleClearAll`, `handleImport`, and the derived
  view `filteredNotes`.
* `src/utils/storage.ts`: `loadNotes`, `loadProfile`.

Platform primitives are modeled explicitly: `Date.now()` readings and
`crypto.randomUUID()` results are parameters of the operations that read
them, and a document fed to the platform `JSON.parse` is modeled by its
parse outcome (`none` when parsing throws, `some v` when it returns the
value `v`).  Timestamps (milliseconds since the epoch) are `Nat`.
-/

namespace NotepadPro

open scoped List

/-- The `Note` record of types.ts.  `color` is an optional string tag. -/
structure Note where
  id : String
  title : String
  content : String
  isPinned : Bool
  createdAt : Nat
  lastModified : Nat
  color : Option String
deriving DecidableEq

/-- The `UserProfile` record of types.ts (`avatar: string | null`). -/
structure UserProfile where
  name : String
  avatar : Option String
deriving DecidableEq

/-- The `SortOption` enum of types.ts. -/
inductive SortOption where
  | CREATED_DESC
  | CREATED_ASC
  | MODIFIED_DESC
  | TITLE_ASC
deriving DecidableEq

/-- The `COLORS` palette of types.ts. -/
def COLORS : List String :=
  ["bg-white", "bg-red-50", "bg-blue-50", "bg-green-50", "bg-yellow-50",
   "bg-purple-50", "bg-pink-50"]

/-- JS `String.prototype.toLowerCase`, modeled per character. -/
def jsToLower (s : String) : String := String.mk (s.data.map Char.toLower)

/-- JS `String.prototype.includes`: the needle occurs as a contiguous
substring of the haystack. -/
def jsIncludes (hay needle : String) : Bool := decide (needle.data <:+: hay.data)

/-- The filter predicate of `filteredNotes` (App.tsx lines 74-77): the
lower-cased query occurs in the lower-cased title or content. -/
def matchesQuery (searchQuery : String) (n : Note) : Bool :=
  jsIncludes (jsToLower n.title) (jsToLower searchQuery) ||
  jsIncludes (jsToLower n.content) (jsToLower searchQuery)

/-- JS `String.prototype.localeCompare`, modeled as lexicographic string
comparison returning a negative, zero, or positive number. -/
def localeCompare (a b : String) : Int :=
  if a < b then -1 else if a = b then 0 else 1

/-- The comparator passed to `result.sort` in `filteredNotes`
(App.tsx lines 79-90): pinned first, then the selected sort key. -/
def noteCmp (sortBy : SortOption) (a b : Note) : Int :=
  if a.isPinned && !b.isPinned then -1
  else if !a.isPinned && b.isPinned then 1
  else
    match sortBy with
    | .CREATED_DESC => (b.createdAt : Int) - (a.createdAt : Int)
    | .CREATED_ASC => (a.createdAt : Int) - (b.createdAt : Int)
    | .MODIFIED_DESC => (b.lastModified : Int) - (a.lastModified : Int)
    | .TITLE_ASC => localeCompare a.title b.title

/-- A stable sort keeps `a` no later than `b` exactly when the comparator
does not demand the opposite order, i.e. when `noteCmp a b ≤ 0`. -/
def noteLe (sortBy : SortOption) (a b : Note) : Bool :=
  noteCmp sortBy a b ≤ 0

/-- `filteredNotes` (App.tsx lines 73-93): filter by the search query,
then sort with the pinned-first comparator.  `Array.prototype.sort` is
required to be stable (ES2019), modeled by `List.mergeSort`. -/
def filteredNotes (notes : List Note) (searchQuery : String)
    (sortBy : SortOption) : List Note :=
  (notes.filter (matchesQuery searchQuery)).mergeSort (noteLe sortBy)

/-- The fresh note built by `handleCreateNote` (App.tsx lines 96-104);
`id` stands for the `crypto.randomUUID()` result and `now` for the
millisecond clock value `Date.now()` read inside the handler. -/
def newNote (id : String) (now : Nat) : Note :=
  { id := id, title := "", content := "", isPinned := false,
    createdAt := now, lastModified := now, color := COLORS[0]? }

/-- `handleCreateNote` (App.tsx lines 95-108): prepend the fresh note.
(The handler also selects the note and opens the editor; that is
presentation state outside the collection.) -/
def handleCreateNote (id : String) (now : Nat) (notes : List Note) : List Note :=
  newNote id now :: notes

/-- A `Partial<Note>` object: each property is optionally present.  A
present `color` carries the optional-string value being assigned. -/
structure NoteUpdate where
  id : Option String
  title : Option String
  content : Option String
  isPinned : Option Bool
  createdAt : Option Nat
  lastModified : Option Nat
  color : Option (Option String)
deriving DecidableEq

/-- The spread `{ ...n, ...updates, lastModified: Date.now() }` on
App.tsx line 113: properties present in `updates` override those of `n`,
and `lastModified` is then set to the clock reading unconditionally. -/
def applyUpdate (n : Note) (u : NoteUpdate) (now : Nat) : Note :=
  { id := u.id.getD n.id,
    title := u.title.getD n.title,
    content := u.content.getD n.content,
    isPinned := u.isPinned.getD n.isPinned,
    createdAt := u.createdAt.getD n.createdAt,
    lastModified := now,
    color := u.color.getD n.color }

/-- `handleUpdateNote` (App.tsx lines 110-115); `targetId` stands for the
non-null `currentNoteId` the handler closes over. -/
def handleUpdateNote (targetId : String) (u : NoteUpdate) (now : Nat)
    (notes : List Note) : List Note :=
  notes.map fun n => if n.id = targetId then applyUpdate n u now else n

/-- `handleDeleteNote` (App.tsx lines 117-121). -/
def handleDeleteNote (id : String) (notes : List Note) : List Note :=
  notes.filter fun n => n.id != id

/-- `handleTogglePin` (App.tsx lines 123-127): flip `isPinned` of the
matching note; no other property is written. -/
def handleTogglePin (id : String) (notes : List Note) : List Note :=
  notes.map fun n => if n.id = id then { n with isPinned := !n.isPinned } else n

/-- The pieces of App state the store operations touch. -/
structure AppState where
  notes : List Note
  profile : UserProfile
deriving DecidableEq

/-- `handleClearAll` (App.tsx lines 141-159): guarded by `window.confirm`;
when confirmed it clears both storage keys, empties the collection and
sets the profile to `{ name: 'Guest User', avatar: null }`. -/
def handleClearAll (confirmed : Bool) (s : AppState) : AppState :=
  if confirmed then
    { notes := [], profile := { name := "Guest User", avatar := none } }
  else s

/-- A JSON value as produced by the platform `JSON.parse`.  Only the
top-level shape matters to the embedded code; a top-level array's
elements are taken to be note records, exactly as `handleImport` uses
them (it never validates the elements). -/
inductive Json where
  | null
  | bool (b : Bool)
  | num (n : Int)
  | str (s : String)
  | obj
  | arr (records : List Note)
deriving DecidableEq

/-- The `Array.isArray` test on a parsed value. -/
def Json.isArr : Json → Bool
  | .arr _ => true
  | _ => false

/-- The outcome `handleImport` reports through `alert`
(App.tsx lines 182-191). -/
inductive ImportResult where
  | imported
  | invalidFormat
  | parseFailure
deriving DecidableEq

/-- `handleImport` (App.tsx lines 176-195).  The supplied document is
modeled by its `JSON.parse` outcome: `none` when parsing throws
("Could not read backup file."), `some v` when it parses to `v`.  When
`v` is an array its records are prepended to the collection; otherwise
("Invalid backup format.") the collection is left untouched. -/
def handleImport (parsed : Option Json) (notes : List Note) :
    ImportResult × List Note :=
  match parsed with
  | none => (.parseFailure, notes)
  | some (.arr records) => (.imported, records ++ notes)
  | some _ => (.invalidFormat, notes)

/-- `loadNotes` (src/utils/storage.ts lines 11-20).  The stored value
under the notes key is modeled by `none` (key absent) or `some p` with
`p` its `JSON.parse` outcome (`none` when parsing throws).  A parsed
value is returned unchanged: there is no shape validation. -/
def loadNotes (stored : Option (Option Json)) : Json :=
  match stored with
  | none => .arr []
  | some none => .arr []
  | some (some v) => v

/-- `loadProfile` (src/utils/storage.ts lines 26-33), modeled the same
way; the fallback profile is `{ name: 'Guest', avatar: null }`. -/
def loadProfile (stored : Option (Option UserProfile)) : UserProfile :=
  match stored with
  | none => { name := "Guest", avatar := none }
  | some none => { name := "Guest", avatar := none }
  | some (some p) => p

/-! ### Helper lemmas shared by several results -/

/-- Mapping a projection that is blind to `isPinned` over the result of
`handleTogglePin` is the same as mapping it over the input. -/
theorem map_handleTogglePin {α : Type} (g : Note → α)
    (hg : ∀ n : Note, g { n with isPinned := !n.isPinned } = g n)
    (id : String) (notes : List Note) :
    (handleTogglePin id notes).map g = notes.map g := by
  unfold handleTogglePin
  induction notes with
  | nil => rfl
  | cons n t ih =>
    simp only [List.map_cons, ih]
    by_cases h : n.id = id
    · rw [if_pos h, hg n]
    · rw [if_neg h]

/-- The `isPinned` column after `handleTogglePin`. -/
theorem isPinned_map_handleTogglePin (id : String) (notes : List Note) :
    (handleTogglePin id notes).map Note.isPinned
      = notes.map (fun n => if n.id = id then !n.isPinned else n.isPinned) := by
  unfold handleTogglePin
  induction notes with
  | nil => rfl
  | cons n t ih =>
    simp only [List.map_cons, ih]
    by_cases h : n.id = id
    · rw [if_pos h, if_pos h]
    · rw [if_neg h, if_neg h]

/-- Mapping a projection that `applyUpdate` preserves over the result of
`handleUpdateNote` is the same as mapping it over the input. -/
theorem map_handleUpdateNote {α : Type} (g : Note → α) (targetId : String)
    (u : NoteUpdate) (now : Nat)
    (hg : ∀ n : Note, g (applyUpdate n u now) = g n) (notes : List Note) :
    (handleUpdateNote targetId u now notes).map g = notes.map g := by
  unfold handleUpdateNote
  induction notes with
  | nil => rfl
  | cons n t ih =>
    simp only [List.map_cons, ih]
    by_cases h : n.id = targetId
    · rw [if_pos h, hg n]
    · rw [if_neg h]

/-- The `lastModified` column after `handleUpdateNote`: the clock reading
for the matching note, the old value elsewhere. -/
theorem lastModified_map_handleUpdateNote (targetId : String) (u : NoteUpdate)
    (now : Nat) (notes : List Note) :
    (handleUpdateNote targetId u now notes).map Note.lastModified
      = notes.map (fun n => if n.id = targetId then now else n.lastModified) := by
  unfold handleUpdateNote
  induction notes with
  | nil => rfl
  | cons n t ih =>
    simp only [List.map_cons, ih]
    by_cases h : n.id = targetId
    · rw [if_pos h, if_pos h]; rfl
    · rw [if_neg h, if_neg h]

/-- `handleUpdateNote` is the identity when no note carries the id. -/
theorem handleUpdateNote_not_found (targetId : String) (u : NoteUpdate)
    (now : Nat) :
    ∀ notes : List Note, (∀ n ∈ notes, n.id ≠ targetId) →
      handleUpdateNote targetId u now notes = notes := by
  intro notes
  induction notes with
  | nil => intro _; rfl
  | cons n t ih =>
    intro h
    have ht := ih fun m hm => h m (List.mem_cons_of_mem n hm)
    simp only [handleUpdateNote, List.map_cons] at ht ⊢
    rw [if_neg (h n (List.mem_cons_self n t)), ht]

/-! ### Results -/

/-- C2: for every collection and every id, `togglePin(id)` flips the
`isPinned` flag of each note carrying that id and leaves `lastModified`
and every other field of every note unchanged. -/
theorem togglePin_flips_only_isPinned (id : String) (notes : List Note) :
    (handleTogglePin id notes).map Note.id = notes.map Note.id
  ∧ (handleTogglePin id notes).map Note.title = notes.map Note.title
  ∧ (handleTogglePin id notes).map Note.content = notes.map Note.content
  ∧ (handleTogglePin id notes).map Note.createdAt = notes.map Note.createdAt
  ∧ (handleTogglePin id notes).map Note.lastModified = notes.map Note.lastModified
  ∧ (handleTogglePin id notes).map Note.color = notes.map Note.color
  ∧ (handleTogglePin id notes).map Note.isPinned
      = notes.map (fun n => if n.id = id then !n.isPinned else n.isPinned) :=
  ⟨map_handleTogglePin Note.id (fun _ => rfl) id notes,
   map_handleTogglePin Note.title (fun _ => rfl) id notes,
   map_handleTogglePin Note.content (fun _ => rfl) id notes,
   map_handleTogglePin Note.createdAt (fun _ => rfl) id notes,
   map_handleTogglePin Note.lastModified (fun _ => rfl) id notes,
   map_handleTogglePin Note.color (fun _ => rfl) id notes,
   isPinned_map_handleTogglePin id notes⟩

/-- C9 (amended): `lastModified` is refreshed to the clock reading by
`update` on the matching note, but a pin toggle leaves every note's
`lastModified` unchanged. -/
theorem lastModified_update_semantics (targetId : String) (u : NoteUpdate)
    (now : Nat) (notes : List Note) :
    (handleTogglePin targetId notes).map Note.lastModified
      = notes.map Note.lastModified
  ∧ (handleUpdateNote targetId u now notes).map Note.lastModified
      = notes.map (fun n => if n.id = targetId then now else n.lastModified) :=
  ⟨map_handleTogglePin Note.lastModified (fun _ => rfl) targetId notes,
   lastModified_map_handleUpdateNote targetId u now notes⟩

/-- C9 counterexample: a note with `lastModified = 5` toggled at clock
time `7` keeps `lastModified = 5` — the handler does not even read the
clock, so the result cannot equal the time of the toggle. -/
theorem togglePin_ignores_clock_cex :
    (handleTogglePin "a"
        [{ id := "a", title := "t", content := "c", isPinned := false,
           createdAt := 3, lastModified := 5, color := none }]).map
      Note.lastModified = [5]
  ∧ (5 : Nat) ≠ 7 := by decide

/-- C3 (amended): for partial updates that do not themselves carry an
`id` or `createdAt` property, `update` preserves every note's `id` and
`createdAt`, sets the matching note's `lastModified` to the clock
reading regardless of which fields changed, and is a no-op when no note
carries the id. -/
theorem update_sets_lastModified_preserves_identity (targetId : String)
    (u : NoteUpdate) (now : Nat) (notes : List Note)
    (hid : u.id = none) (hca : u.createdAt = none) :
    (handleUpdateNote targetId u now notes).map Note.id = notes.map Note.id
  ∧ (handleUpdateNote targetId u now notes).map Note.createdAt
      = notes.map Note.createdAt
  ∧ (handleUpdateNote targetId u now notes).map Note.lastModified
      = notes.map (fun n => if n.id = targetId then now else n.lastModified)
  ∧ ((∀ n ∈ notes, n.id ≠ targetId) →
      handleUpdateNote targetId u now notes = notes) := by
  refine ⟨map_handleUpdateNote Note.id targetId u now (fun n => ?_) notes,
          map_handleUpdateNote Note.createdAt targetId u now (fun n => ?_) notes,
          lastModified_map_handleUpdateNote targetId u now notes,
          handleUpdateNote_not_found targetId u now notes⟩
  · simp [applyUpdate, hid]
  · simp [applyUpdate, hca]

/-- C3 witness: a title-only update of a concrete one-note collection. -/
theorem update_sets_lastModified_preserves_identity_witness :
    (handleUpdateNote "a" ⟨none, some "T", none, none, none, none, none⟩ 9
        [⟨"a", "t", "c", false, 1, 1, none⟩]).map Note.id
      = [(⟨"a", "t", "c", false, 1, 1, none⟩ : Note)].map Note.id
  ∧ (handleUpdateNote "a" ⟨none, some "T", none, none, none, none, none⟩ 9
        [⟨"a", "t", "c", false, 1, 1, none⟩]).map Note.createdAt
      = [(⟨"a", "t", "c", false, 1, 1, none⟩ : Note)].map Note.createdAt
  ∧ (handleUpdateNote "a" ⟨none, some "T", none, none, none, none, none⟩ 9
        [⟨"a", "t", "c", false, 1, 1, none⟩]).map Note.lastModified
      = [(⟨"a", "t", "c", false, 1, 1, none⟩ : Note)].map
          (fun n => if n.id = "a" then 9 else n.lastModified)
  ∧ ((∀ n ∈ [(⟨"a", "t", "c", false, 1, 1, none⟩ : Note)], n.id ≠ "a") →
      handleUpdateNote "a" ⟨none, some "T", none, none, none, none, none⟩ 9
        [⟨"a", "t", "c", false, 1, 1, none⟩]
      = [⟨"a", "t", "c", false, 1, 1, none⟩]) :=
  update_sets_lastModified_preserves_identity "a"
    ⟨none, some "T", none, none, none, none, none⟩ 9
    [⟨"a", "t", "c", false, 1, 1, none⟩] rfl rfl

/-- C3 counterexample: a partial update object carrying a `createdAt`
property is spread into the note, so `update` alters `createdAt`
(from 1 to 42), refuting the claim for arbitrary subsets of Note
fields. -/
theorem update_alters_createdAt_cex :
    ([(⟨"a", "t", "c", false, 1, 1, none⟩ : Note)]).map Note.createdAt = [1]
  ∧ (handleUpdateNote "a" ⟨none, none, none, none, some 42, none, none⟩ 9
        [⟨"a", "t", "c", false, 1, 1, none⟩]).map Note.createdAt = [42] := by
  decide

/-- C4: a document whose parse fails signals the parse failure, a parsed
non-array signals the invalid-format outcome, and both leave the
collection exactly unchanged. -/
theorem handleImport_failure_leaves_collection_untouched (notes : List Note) :
    handleImport none notes = (.parseFailure, notes)
  ∧ (∀ v : Json, v.isArr = false →
      handleImport (some v) notes = (.invalidFormat, notes)) := by
  refine ⟨rfl, fun v hv => ?_⟩
  cases v <;> simp_all [handleImport, Json.isArr]

/-- C4 witness: the spec's own scenario, a document parsing to the
string "not an array", plus a malformed document. -/
theorem handleImport_failure_leaves_collection_untouched_witness :
    handleImport none [] = (.parseFailure, [])
  ∧ handleImport (some (.str "not an array")) [] = (.invalidFormat, []) :=
  ⟨(handleImport_failure_leaves_collection_untouched []).1,
   (handleImport_failure_leaves_collection_untouched []).2 (.str "not an array") rfl⟩

/-- C5 (amended): the confirmed clear-all empties the collection and
resets the profile to `{ name: 'Guest User', avatar: null }` — note the
name is `'Guest User'`, not the `'Guest'` default of `loadProfile`. -/
theorem clearAll_resets_to_guest_user (s : AppState) :
    handleClearAll true s
      = { notes := [], profile := { name := "Guest User", avatar := none } } :=
  rfl

/-- C5 counterexample: after a confirmed clear-all the profile name is
"Guest User", while the default profile of the storage layer is named
"Guest"; the two differ. -/
theorem clearAll_profile_name_cex :
    (handleClearAll true
        { notes := [⟨"a", "t", "c", false, 1, 1, none⟩],
          profile := { name := "Alice", avatar := some "img" } }).profile.name
      = "Guest User"
  ∧ (loadProfile none).name = "Guest"
  ∧ ("Guest User" : String) ≠ "Guest" := by decide

/-- C8: `create` prepends a fresh note whose `createdAt` and
`lastModified` are both the clock reading, whose `isPinned` is false,
and whose id (the collision-free generator's output) is distinct from
every pre-existing id; the pre-existing notes are kept unchanged as the
tail. -/
theorem create_prepends_fresh_note (id : String) (now : Nat)
    (notes : List Note) (h : id ∉ notes.map Note.id) :
    ∃ n : Note, handleCreateNote id now notes = n :: notes
      ∧ n.id = id ∧ n.createdAt = now ∧ n.lastModified = now
      ∧ n.createdAt = n.lastModified ∧ n.isPinned = false
      ∧ n.id ∉ notes.map Note.id :=
  ⟨newNote id now, rfl, rfl, rfl, rfl, rfl, rfl, h⟩

/-- C8 witness: creating a note at clock time 5 on a one-note
collection. -/
theorem create_prepends_fresh_note_witness :
    ∃ n : Note, handleCreateNote "u1" 5 [newNote "u0" 1] = n :: [newNote "u0" 1]
      ∧ n.id = "u1" ∧ n.createdAt = 5 ∧ n.lastModified = 5
      ∧ n.createdAt = n.lastModified ∧ n.isPinned = false
      ∧ n.id ∉ ([newNote "u0" 1]).map Note.id :=
  create_prepends_fresh_note "u1" 5 [newNote "u0" 1] (by decide)

/-- C10: `loadNotes` validates only parseability: any successfully
parsed value is returned unchanged — including non-array values such as
a JSON number — and the empty-collection fallback is used only when the
key is absent or parsing throws. -/
theorem loadNotes_validates_only_parseability :
    (∀ v : Json, loadNotes (some (some v)) = v)
  ∧ loadNotes none = Json.arr []
  ∧ loadNotes (some none) = Json.arr []
  ∧ loadNotes (some (some (Json.num 3))) = Json.num 3
  ∧ (Json.num 3).isArr = false :=
  ⟨fun _ => rfl, rfl, rfl, rfl, rfl⟩

/-! ### Sequences of public operations, for the id-uniqueness invariant -/

/-- One user intent entering the store.  `create` carries the generated
id and the clock reading, `update` carries the partial-field object and
the clock reading, and `runImport` carries the parse outcome of the
supplied document. -/
inductive Op where
  | create (id : String) (now : Nat)
  | update (id : String) (u : NoteUpdate) (now : Nat)
  | delete (id : String)
  | togglePin (id : String)
  | clearAll
  | runImport (parsed : Option Json)
deriving DecidableEq

/-- Effect of one operation on the collection (the profile plays no part
in id uniqueness). -/
def applyOp (op : Op) (notes : List Note) : List Note :=
  match op with
  | .create id now => handleCreateNote id now notes
  | .update id u now => handleUpdateNote id u now notes
  | .delete id => handleDeleteNote id notes
  | .togglePin id => handleTogglePin id notes
  | .clearAll => []
  | .runImport parsed => (handleImport parsed notes).2

/-- Left-to-right execution of a sequence of operations. -/
def applySeq (ops : List Op) (notes : List Note) : List Note :=
  match ops with
  | [] => notes
  | op :: rest => applySeq rest (applyOp op notes)

/-- The collection's ids are pairwise distinct. -/
def NodupIds (notes : List Note) : Prop := (notes.map Note.id).Nodup

instance (notes : List Note) : Decidable (NodupIds notes) :=
  inferInstanceAs (Decidable ((notes.map Note.id).Nodup))

/-- Side conditions under which an operation is id-safe: `create`
receives a collision-free fresh id (the `crypto.randomUUID` contract),
`update` does not smuggle an `id` property into the partial object, and
no document import takes place. -/
def opOK (op : Op) (notes : List Note) : Prop :=
  match op with
  | .create id _ => id ∉ notes.map Note.id
  | .update _ u _ => u.id = none
  | .runImport _ => False
  | _ => True

instance instDecidableOpOK (op : Op) (notes : List Note) :
    Decidable (opOK op notes) :=
  match op with
  | .create id _ => inferInstanceAs (Decidable (id ∉ notes.map Note.id))
  | .update _ u _ => inferInstanceAs (Decidable (u.id = none))
  | .delete _ => inferInstanceAs (Decidable True)
  | .togglePin _ => inferInstanceAs (Decidable True)
  | .clearAll => inferInstanceAs (Decidable True)
  | .runImport _ => inferInstanceAs (Decidable False)

/-- Every operation of the sequence is id-safe at the state it runs in. -/
def SeqOK : List Op → List Note → Prop
  | [], _ => True
  | op :: rest, notes => opOK op notes ∧ SeqOK rest (applyOp op notes)

instance instDecidableSeqOK : (ops : List Op) → (notes : List Note) →
    Decidable (SeqOK ops notes)
  | [], _ => .isTrue trivial
  | op :: rest, notes =>
    have : Decidable (SeqOK rest (applyOp op notes)) :=
      instDecidableSeqOK rest (applyOp op notes)
    inferInstanceAs (Decidable (opOK op notes ∧ SeqOK rest (applyOp op notes)))

/-- A single id-safe operation preserves id uniqueness. -/
theorem nodupIds_applyOp (op : Op) (notes : List Note)
    (h : NodupIds notes) (hop : opOK op notes) : NodupIds (applyOp op notes) := by
  cases op with
  | create id now =>
    have hids : (applyOp (.create id now) notes).map Note.id
        = id :: notes.map Note.id := rfl
    unfold NodupIds
    rw [hids]
    exact List.nodup_cons.mpr ⟨hop, h⟩
  | update tid u now =>
    have hid : u.id = none := hop
    have hids := map_handleUpdateNote Note.id tid u now
      (fun n => by simp [applyUpdate, hid]) notes
    unfold NodupIds
    simpa [applyOp, hids] using h
  | delete id =>
    have hsub : (handleDeleteNote id notes).map Note.id
        <+ notes.map Note.id :=
      (List.filter_sublist notes).map Note.id
    exact List.Nodup.sublist hsub h
  | togglePin id =>
    have hids := map_handleTogglePin Note.id (fun _ => rfl) id notes
    unfold NodupIds
    simpa [applyOp, hids] using h
  | clearAll => exact List.nodup_nil
  | runImport parsed => exact hop.elim

/-- C1 (amended): id uniqueness is an invariant of the import-free
public operations — for every sequence of `create` (with a fresh id),
`update` (whose partial object carries no `id`), `delete`, `togglePin`
and `clearAll`, run from a collection with pairwise-distinct ids, the
resulting collection's ids are pairwise distinct.  A document import can
break the invariant (see the counterexample). -/
theorem idSafe_ops_preserve_id_uniqueness (ops : List Op) :
    ∀ notes : List Note, NodupIds notes → SeqOK ops notes →
      NodupIds (applySeq ops notes) := by
  induction ops with
  | nil => intro notes h _; exact h
  | cons op rest ih =>
    intro notes h hseq
    exact ih (applyOp op notes) (nodupIds_applyOp op notes h hseq.1) hseq.2

/-- C1 witness: create two notes with fresh ids, toggle one, edit one,
delete one, starting from the empty collection. -/
theorem idSafe_ops_preserve_id_uniqueness_witness :
    NodupIds []
  ∧ SeqOK [Op.create "a" 0, Op.create "b" 1, Op.togglePin "a",
      Op.update "b" ⟨none, some "T", none, none, none, none, none⟩ 2,
      Op.delete "a"] []
  ∧ NodupIds (applySeq [Op.create "a" 0, Op.create "b" 1, Op.togglePin "a",
      Op.update "b" ⟨none, some "T", none, none, none, none, none⟩ 2,
      Op.delete "a"] []) :=
  ⟨by decide, by decide,
   idSafe_ops_preserve_id_uniqueness
     [Op.create "a" 0, Op.create "b" 1, Op.togglePin "a",
      Op.update "b" ⟨none, some "T", none, none, none, none, none⟩ 2,
      Op.delete "a"] [] (by decide) (by decide)⟩

/-! ### Order properties of the view comparator -/

/-- `localeCompare a b ≤ 0` is exactly `a ≤ b` in the lexicographic
string order. -/
theorem localeCompare_nonpos (a b : String) : localeCompare a b ≤ 0 ↔ a ≤ b := by
  unfold localeCompare
  rcases lt_trichotomy a b with h | h | h
  · rw [if_pos h]
    exact iff_of_true (by norm_num) h.le
  · subst h
    rw [if_neg (lt_irrefl a), if_pos rfl]
    exact iff_of_true le_rfl le_rfl
  · rw [if_neg (lt_asymm h), if_neg h.ne']
    exact iff_of_false (by norm_num) (not_le.mpr h)

/-- Swapping the arguments negates `localeCompare`. -/
theorem localeCompare_neg (a b : String) : localeCompare b a = -localeCompare a b := by
  unfold localeCompare
  rcases lt_trichotomy a b with h | h | h
  · rw [if_neg (lt_asymm h), if_neg h.ne', if_pos h]
    norm_num
  · subst h
    rw [if_neg (lt_irrefl a), if_pos rfl]
    norm_num
  · rw [if_pos h, if_neg (lt_asymm h), if_neg h.ne']

/-- Swapping the arguments negates the comparator (it is consistent). -/
theorem noteCmp_neg (sortBy : SortOption) (a b : Note) :
    noteCmp sortBy b a = -noteCmp sortBy a b := by
  have hl := localeCompare_neg a.title b.title
  unfold noteCmp
  cases ha : a.isPinned <;> cases hb : b.isPinned <;> cases sortBy <;>
    simp [ha, hb] <;> omega

/-- The keep-before relation of the comparator is total. -/
theorem noteLe_total (sortBy : SortOption) (a b : Note) :
    noteLe sortBy a b || noteLe sortBy b a := by
  have h := noteCmp_neg sortBy a b
  simp only [noteLe, Bool.or_eq_true, decide_eq_true_eq]
  omega

/-- The keep-before relation of the comparator is transitive. -/
theorem noteLe_trans (sortBy : SortOption) (a b c : Note) :
    noteLe sortBy a b → noteLe sortBy b c → noteLe sortBy a c := by
  simp only [noteLe, decide_eq_true_eq]
  intro hab hbc
  cases sortBy <;> cases ha : a.isPinned <;> cases hb : b.isPinned <;>
      cases hc : c.isPinned <;>
    simp [noteCmp, ha, hb, hc] at hab hbc ⊢ <;>
    first
      | omega
      | (rw [localeCompare_nonpos] at hab hbc ⊢; exact le_trans hab hbc)

/-- Under the comparator, an unpinned note is never kept before a pinned
one. -/
theorem noteLe_pinned_first (sortBy : SortOption) (a b : Note)
    (h : noteLe sortBy a b) : b.isPinned = true → a.isPinned = true := by
  intro hb
  by_contra ha
  rw [Bool.not_eq_true] at ha
  simp only [noteLe, decide_eq_true_eq] at h
  simp [noteCmp, ha, hb] at h

/-- The per-partition sort key of §4.2, spelled out from the spec's sort
option descriptions (descending creation, ascending creation, descending
modification, ascending title). -/
def keyLe (sortBy : SortOption) (a b : Note) : Prop :=
  match sortBy with
  | .CREATED_DESC => b.createdAt ≤ a.createdAt
  | .CREATED_ASC => a.createdAt ≤ b.createdAt
  | .MODIFIED_DESC => b.lastModified ≤ a.lastModified
  | .TITLE_ASC => a.title ≤ b.title

/-- Between notes of the same pin state, the comparator orders by the
selected sort key. -/
theorem noteLe_same_pin_keyLe (sortBy : SortOption) (a b : Note)
    (h : noteLe sortBy a b) (hpin : a.isPinned = b.isPinned) :
    keyLe sortBy a b := by
  simp only [noteLe, decide_eq_true_eq] at h
  cases hb : b.isPinned with
  | false =>
    have ha : a.isPinned = false := by rw [hpin, hb]
    cases sortBy <;> simp [noteCmp, ha, hb] at h <;> simp only [keyLe] <;>
      first
        | omega
        | exact (localeCompare_nonpos _ _).mp h
  | true =>
    have ha : a.isPinned = true := by rw [hpin, hb]
    cases sortBy <;> simp [noteCmp, ha, hb] at h <;> simp only [keyLe] <;>
      first
        | omega
        | exact (localeCompare_nonpos _ _).mp h

/-- C6: for every collection, query and sort option, the projected view
places every pinned note before every unpinned one, orders notes of the
same pin state by the selected sort key, and keeps any two collection-
ordered matching notes that the comparator does not strictly separate —
in particular notes with equal sort keys — in their collection order
(the stable tie-break). -/
theorem filteredNotes_pinned_first_sorted_stable (notes : List Note)
    (searchQuery : String) (sortBy : SortOption) :
    (filteredNotes notes searchQuery sortBy).Pairwise
      (fun a b => b.isPinned = true → a.isPinned = true)
  ∧ (filteredNotes notes searchQuery sortBy).Pairwise
      (fun a b => a.isPinned = b.isPinned → keyLe sortBy a b)
  ∧ (∀ a b : Note, [a, b] <+ notes → matchesQuery searchQuery a = true →
      matchesQuery searchQuery b = true → noteLe sortBy a b = true →
      [a, b] <+ filteredNotes notes searchQuery sortBy) := by
  have trans : ∀ x y z : Note,
      noteLe sortBy x y → noteLe sortBy y z → noteLe sortBy x z :=
    fun x y z => noteLe_trans sortBy x y z
  have total : ∀ x y : Note, noteLe sortBy x y || noteLe sortBy y x :=
    fun x y => noteLe_total sortBy x y
  have hsorted : (filteredNotes notes searchQuery sortBy).Pairwise
      (fun a b => noteLe sortBy a b = true) :=
    List.sorted_mergeSort trans total (notes.filter (matchesQuery searchQuery))
  refine ⟨?_, ?_, ?_⟩
  · exact hsorted.imp fun hab => noteLe_pinned_first sortBy _ _ hab
  · exact hsorted.imp fun hab hpin => noteLe_same_pin_keyLe sortBy _ _ hab hpin
  · intro a b hsub hma hmb hab
    have hfil : [a, b] <+ notes.filter (matchesQuery searchQuery) := by
      have hf := hsub.filter (matchesQuery searchQuery)
      simpa [hma, hmb] using hf
    exact List.pair_sublist_mergeSort trans total hab hfil

/-- C6 witness: two unpinned notes with equal `lastModified`, sorted by
recent modification under the empty query, keep their collection order. -/
theorem filteredNotes_pinned_first_sorted_stable_witness :
    [(⟨"a", "A", "", false, 0, 5, none⟩ : Note),
     (⟨"b", "B", "", false, 1, 5, none⟩ : Note)]
      <+ filteredNotes
          [⟨"a", "A", "", false, 0, 5, none⟩, ⟨"b", "B", "", false, 1, 5, none⟩]
          "" SortOption.MODIFIED_DESC :=
  (filteredNotes_pinned_first_sorted_stable
      [⟨"a", "A", "", false, 0, 5, none⟩, ⟨"b", "B", "", false, 1, 5, none⟩]
      "" SortOption.MODIFIED_DESC).2.2
    ⟨"a", "A", "", false, 0, 5, none⟩ ⟨"b", "B", "", false, 1, 5, none⟩
    (List.Sublist.refl _) (by decide) (by decide) (by decide)

/-- C7: a note appears in the projected view iff it is in the collection
and the (case-insensitively lower-cased) query occurs in its title or
content; the empty query matches every note. -/
theorem filteredNotes_filter_correctness (notes : List Note)
    (searchQuery : String) (sortBy : SortOption) (n : Note) :
    (n ∈ filteredNotes notes searchQuery sortBy ↔
      n ∈ notes ∧ matchesQuery searchQuery n = true)
  ∧ matchesQuery "" n = true := by
  constructor
  · unfold filteredNotes
    rw [List.mem_mergeSort, List.mem_filter]
  · simp only [matchesQuery, Bool.or_eq_true]
    left
    simp only [jsIncludes, decide_eq_true_eq]
    have h : (jsToLower "").data = ([] : List Char) := by decide
    rw [h]
    exact List.nil_infix

/-- C7 witness: the spec's search scenario — the query "eggs" matches
the note whose content is "milk, eggs", which therefore appears in the
projected view. -/
theorem filteredNotes_filter_correctness_witness :
    (⟨"a", "Groceries", "milk, eggs", false, 0, 0, none⟩ : Note) ∈
      filteredNotes
        [⟨"a", "Groceries", "milk, eggs", false, 0, 0, none⟩,
         ⟨"b", "Plan", "trip", true, 1, 1, none⟩]
        "eggs" SortOption.TITLE_ASC :=
  (filteredNotes_filter_correctness
      [⟨"a", "Groceries", "milk, eggs", false, 0, 0, none⟩,
       ⟨"b", "Plan", "trip", true, 1, 1, none⟩]
      "eggs" SortOption.TITLE_ASC
      ⟨"a", "Groceries", "milk, eggs", false, 0, 0, none⟩).1.mpr
    ⟨by simp, by decide⟩

/-- C1 counterexample: starting from the empty collection (trivially
pairwise distinct), create a note with id "a" and then import a document
that parses to an array containing a record with the same id "a"; that
document's records are prepended without de-duplication, so the
resulting collection carries the id "a" twice. -/
theorem handleImport_breaks_id_uniqueness_cex :
    NodupIds []
  ∧ ¬ NodupIds (applySeq
      [Op.create "a" 0, Op.runImport (some (Json.arr [newNote "a" 3]))] []) := by
  decide

end NotepadPro
